import Mathlib

/- Shallow embedding of src/Tools/disassemblerAGC/searchFunctions.py
   (the function searchSpecial together with the module-level dictionary
   specialSubroutines), plus concrete fixtures used by the theorems below.

   Translation conventions:
   * Python integers are Int; the while/for loops are translated with an
     explicit Nat fuel argument chosen large enough to cover every
     iteration the Python loop can perform (the forward matching loop
     increments the pattern index on every surviving iteration, so
     pattern length + 1 units of fuel suffice; the offset loop runs over
     range(startingOffset, endingOffset), so (stop - start).toNat units
     suffice; the backward loop decrements iPat, a Nat, and recurses on it
     structurally).
   * The module-level dictionary specialSubroutines is threaded through
     the functions explicitly as a Registry value: an association list
     that preserves insertion order exactly like a Python dict, where
     regSet either overwrites the binding in place or appends a new one.
   * A Python exception escaping searchSpecial is modelled by a Bool ok
     flag in the result: false means the call raised, and the Registry
     component of the result is the state of the global dictionary at the
     moment of the raise.  The two reachable raises are the TypeError
     from range(str, int) when a symbolic range start is not a key of
     specialSubroutines, and the IndexError from the leading-optional
     seek loop when a pattern contains no required item.
   * Debug print statements in the source (guarded by symbol == "no")
     have no effect on any state and are omitted.
-/

namespace SearchAGC

/-- One element of a search pattern: the tuple
(required, acceptable opcodes, acceptable operands) of the Python code. -/
structure PatternItem where
  required : Bool
  opcodes : List String
  operands : List String
deriving DecidableEq

/-- A range start: either a numeric offset or the name of another special
symbol (searchRange[1] in the Python code can be an int or a str). -/
inductive StartSpec where
  | num (n : Int)
  | sym (s : String)
deriving DecidableEq

/-- True when a range start is a numeric literal rather than a symbol name. -/
def StartSpec.isNum : StartSpec → Bool
  | .num _ => true
  | .sym _ => false

/-- One address range to search: the Python list [bank, start, end]. -/
structure AddressRange where
  bank : Int
  start : StartSpec
  stop : Int
deriving DecidableEq

/-- One search pattern dictionary, with keys dataWords, noReturn,
pattern and ranges, as built by importFlexFile or written by hand. -/
structure SearchPattern where
  dataWords : Int
  noReturn : Bool
  pattern : List PatternItem
  ranges : List AddressRange
deriving DecidableEq

/-- The sixth component of a specialSubroutines value.  The store in the
forward phase writes searchPattern["dataWords"] (an integer) there, but
the store in the backward phase writes searchPattern["pattern"] (the item
list), so the slot must accommodate both shapes. -/
inductive SixthField where
  | num (n : Int)
  | pat (items : List PatternItem)
deriving DecidableEq

/-- A value of the specialSubroutines dictionary: the Python tuple
(bank, offset, fixedFixed, searchPattern, symbol, dataWords).  The
not-found sentinel stores an empty dict in the fourth slot, modelled as
none. -/
structure Entry where
  bank : Int
  offset : Int
  fixedFixed : Int
  sPattern : Option SearchPattern
  symName : String
  dataWords : SixthField
deriving DecidableEq

/-- The specialSubroutines dictionary: insertion-ordered map from symbol
name to Entry. -/
abbrev Registry := List (String × Entry)

/-- The searchPatterns dictionary: insertion-ordered map from symbol name
to its list of search pattern dictionaries. -/
abbrev Catalog := List (String × List SearchPattern)

/-- Dictionary lookup in a Registry. -/
def regFind : Registry → String → Option Entry
  | [], _ => none
  | (k, v) :: rest, s => if k = s then some v else regFind rest s

/-- Dictionary store in a Registry: overwrite in place, or append. -/
def regSet : Registry → String → Entry → Registry
  | [], s, v => [(s, v)]
  | (k, w) :: rest, s, v =>
    if k = s then (s, v) :: rest else (k, w) :: regSet rest s v

/-- Dictionary lookup in a Catalog. -/
def catFind : Catalog → String → Option (List SearchPattern)
  | [], _ => none
  | (k, v) :: rest, s => if k = s then some v else catFind rest s

/-- The not-found sentinel (-1, -1, -1, empty dict, symbol, 0) written for
each symbol at the start of its processing. -/
def nfEntry (symbol : String) : Entry :=
  ⟨-1, -1, -1, none, symbol, .num 0⟩

/-- Default PatternItem handed to List.getD at list accesses; every such
access in the functions below is in bounds, so the default is never
produced (Python would raise IndexError there). -/
def junkItem : PatternItem := ⟨false, [], []⟩

/-- Octal digits of a positive number, most significant first.  The first
argument is fuel, always called with fuel = n. -/
def octDigitsAux : Nat → Nat → List Char
  | 0, _ => []
  | _ + 1, 0 => []
  | fuel + 1, n + 1 =>
    octDigitsAux fuel ((n + 1) / 8) ++ [Char.ofNat (48 + (n + 1) % 8)]

/-- The Python format "%04o" applied to a non-negative value: octal
digits, left padded with zeros to width four. -/
def fmt04o (v : Int) : String :=
  let n := v.toNat
  let ds := if n = 0 then ['0'] else octDigitsAux n n
  String.mk (List.replicate (4 - ds.length) '0' ++ ds)

/-- The leading-optional seek loop, lines 211-212 and 258-259:
while not pattern[iPat][0]: iPat += 1.  Returns the index of the first
required item counting from i, or none when the walk runs off the end of
the list (Python raises IndexError there). -/
def seekRequired : List PatternItem → Nat → Option Nat
  | [], _ => none
  | it :: rest, i => if it.required then some i else seekRequired rest (i + 1)

/-- Resolution of a range start, lines 190-200.  A numeric start is used
as is (an int is never a key of the string-keyed dictionary).  A symbolic
start that is a key of specialSubroutines becomes that entry offset + 1;
a symbolic start that is not a key is left a string, and
range(str, int) then raises TypeError, modelled as none. -/
def resolveStart (reg : Registry) : StartSpec → Option Int
  | .num n => some n
  | .sym s =>
    match regFind reg s with
    | some e => some (e.offset + 1)
    | none => none

/-- The forward matching loop, lines 218-243.  Arguments after the
pattern: fuel, offset, lastOffset, iPat, extended, and the cached opcode
and operand of the instruction disassembled at lastOffset.  Returns the
value of the test iPat >= len(pattern) evaluated when the loop exits:
true means a provisional match.  The initial call uses lastOffset = -1
and empty cache strings, mirroring the not-yet-bound Python locals; the
first iteration always disassembles because offset differs from -1. -/
def forwardLoop (core : Int → Int → Int)
    (decode : Int → Bool → String × String × Bool)
    (bank stop : Int) (pattern : List PatternItem) :
    Nat → Int → Int → Nat → Bool → String → String → Bool
  | 0, _, _, iPat, _, _, _ => decide (pattern.length ≤ iPat)
  | fuel + 1, offset, lastOffset, iPat, extended, cOp, cArg =>
    if offset < stop ∧ iPat < pattern.length then
      let d := if offset ≠ lastOffset then decode (core bank offset) extended
               else (cOp, cArg, extended)
      let item := pattern.getD iPat junkItem
      if (item.opcodes = [] ∨ d.1 ∈ item.opcodes)
          ∧ (item.operands = [] ∨ d.2.1 ∈ item.operands) then
        forwardLoop core decode bank stop pattern
          fuel (offset + 1) offset (iPat + 1) d.2.2 d.1 d.2.1
      else if item.required then
        false
      else
        forwardLoop core decode bank stop pattern
          fuel offset offset (iPat + 1) d.2.2 d.1 d.2.1
    else decide (pattern.length ≤ iPat)

/-- The backward extension loop over leading optional items, lines
261-281.  Recurses structurally on iPat; each iteration first checks
offset > startingOffset, then decrements both, disassembles with a reset
extended flag, and either stores a shifted entry and continues (opcode
and operand both acceptable), stops keeping the stores made so far
(opcode acceptable, operand not), or continues without storing (opcode
not acceptable). -/
def backwardLoop (core : Int → Int → Int)
    (decode : Int → Bool → String × String × Bool)
    (symbol : String) (sp : SearchPattern) (bank startingOffset : Int) :
    Nat → Int → Registry → Registry
  | 0, _, reg => reg
  | n + 1, offset, reg =>
    if startingOffset < offset then
      let offset1 := offset - 1
      let item := sp.pattern.getD n junkItem
      let d := decode (core bank offset1) false
      if d.1 ∈ item.opcodes then
        if item.operands = [] ∨ d.2.1 ∈ item.operands then
          let fixedFixed := if bank = 2 ∨ bank = 3 then bank * 0o2000 + offset1 else -1
          backwardLoop core decode symbol sp bank startingOffset n offset1
            (regSet reg symbol ⟨bank, offset1, fixedFixed, some sp, symbol, .pat sp.pattern⟩)
        else reg
      else backwardLoop core decode symbol sp bank startingOffset n offset1 reg
    else reg

/-- Finalization of a provisional match at testOffset T, lines 244-281:
store the entry for the match, then re-run the leading-optional seek and
walk backward from T.  The none branch of the seek is unreachable here
because scanOffsets only calls finalize after the same seek succeeded. -/
def finalize (core : Int → Int → Int)
    (decode : Int → Bool → String × String × Bool)
    (symbol : String) (sp : SearchPattern) (bank startingOffset : Int)
    (T : Int) (reg : Registry) : Registry :=
  let fixedFixed := if bank = 2 ∨ bank = 3 then bank * 0o2000 + T else -1
  let reg1 := regSet reg symbol ⟨bank, T, fixedFixed, some sp, symbol, .num sp.dataWords⟩
  match seekRequired sp.pattern 0 with
  | none => reg1
  | some iPat0 => backwardLoop core decode symbol sp bank startingOffset iPat0 T reg1

/-- The candidate-offset loop, lines 202-282: for testOffset in
range(startingOffset, endingOffset).  Fuel counts the remaining
candidates; T is the current candidate.  Each candidate first runs the
leading-optional seek (IndexError, hence ok = false, when the pattern has
no required item), then the forward loop starting at the first required
item; on a provisional match it finalizes and reports found, otherwise
it moves to the next candidate. -/
def scanOffsets (core : Int → Int → Int)
    (decode : Int → Bool → String × String × Bool)
    (symbol : String) (sp : SearchPattern) (bank startingOffset stop : Int) :
    Nat → Int → Registry → Registry × Bool × Bool
  | 0, _, reg => (reg, false, true)
  | fuel + 1, T, reg =>
    match seekRequired sp.pattern 0 with
    | none => (reg, false, false)
    | some iPat0 =>
      if forwardLoop core decode bank stop sp.pattern
          (sp.pattern.length + 1) T (-1) iPat0 false "" "" then
        (finalize core decode symbol sp bank startingOffset T reg, true, true)
      else
        scanOffsets core decode symbol sp bank startingOffset stop fuel (T + 1) reg

/-- The range loop, lines 182-282.  Resolves the range start (symbolic
starts read the registry; an unknown symbolic start raises), scans the
candidate offsets, and moves to the next range when nothing was found. -/
def processRanges (core : Int → Int → Int)
    (decode : Int → Bool → String × String × Bool)
    (symbol : String) (sp : SearchPattern) :
    List AddressRange → Registry → Registry × Bool × Bool
  | [], reg => (reg, false, true)
  | r :: rest, reg =>
    match resolveStart reg r.start with
    | none => (reg, false, false)
    | some s0 =>
      let t := scanOffsets core decode symbol sp r.bank s0 r.stop
        (r.stop - s0).toNat s0 reg
      if t.2.2 then
        if t.2.1 then (t.1, true, true)
        else processRanges core decode symbol sp rest t.1
      else (t.1, t.2.1, false)

/-- The variant loop, lines 178-282: try each search pattern dictionary
of the symbol in order, stopping at the first that is found. -/
def processVariants (core : Int → Int → Int)
    (decode : Int → Bool → String × String × Bool)
    (symbol : String) :
    List SearchPattern → Registry → Registry × Bool × Bool
  | [], reg => (reg, false, true)
  | sp :: rest, reg =>
    let t := processRanges core decode symbol sp sp.ranges reg
    if t.2.2 then
      if t.2.1 then (t.1, true, true)
      else processVariants core decode symbol rest t.1
    else (t.1, t.2.1, false)

/-- Replacement of the first occurrence of a symbol name in an operand
list, lines 293-295: ops[ops.index(symbol)] = literal, guarded by
symbol in ops.  Only the first occurrence changes; absence is a no-op. -/
def replaceFirst : List String → String → String → List String
  | [], _, _ => []
  | o :: rest, s, lit =>
    if o = s then lit :: rest else o :: replaceFirst rest s lit

/-- The rewrite pass over the whole catalog, lines 288-295: in every
pattern item of every variant of every symbol, replace the first
occurrence of the resolved symbol name in the operand list. -/
def rewriteCatalog (cat : Catalog) (symbol lit : String) : Catalog :=
  cat.map fun p =>
    (p.1, p.2.map fun sp =>
      { sp with pattern := sp.pattern.map fun it =>
          { it with operands := replaceFirst it.operands symbol lit } })

/-- The symbol loop, lines 175-295.  Marks the symbol not found, runs its
variants, propagates a raise, and otherwise applies the rewrite pass when
the symbol was found with a fixed-fixed address before moving on.  The
key list is the snapshot of the catalog keys taken when the loop starts;
the catalog value evolves through the rewrite passes. -/
def processSymbols (core : Int → Int → Int)
    (decode : Int → Bool → String × String × Bool) :
    List String → Catalog → Registry → Registry × Catalog × Bool
  | [], cat, reg => (reg, cat, true)
  | symbol :: rest, cat, reg =>
    let t := processVariants core decode symbol
      ((catFind cat symbol).getD []) (regSet reg symbol (nfEntry symbol))
    if t.2.2 then
      processSymbols core decode rest
        (if t.2.1 then
          match regFind t.1 symbol with
          | some e =>
            if e.fixedFixed = -1 then cat
            else rewriteCatalog cat symbol (fmt04o e.fixedFixed)
          | none => cat
         else cat)
        t.1
    else (t.1, cat, false)

/-- The function searchSpecial, lines 173-295, with the module-level
dictionary specialSubroutines made explicit as the reg argument and the
result triple (final dictionary, final catalog, no-raise flag). -/
def searchSpecial (core : Int → Int → Int) (cat : Catalog)
    (decode : Int → Bool → String × String × Bool) (reg : Registry) :
    Registry × Catalog × Bool :=
  processSymbols core decode (cat.map Prod.fst) cat reg

/-- Example decoder used by the concrete fixtures: a pure function that
disassembles word w as opcode W<w> with operand X<w>, never entering the
extracode state. -/
def exDecode (w : Int) (_e : Bool) : String × String × Bool :=
  ("W" ++ toString w, "X" ++ toString w, false)

/-- Example core memory one: word 100 + offset in every bank. -/
def cx1core : Int → Int → Int := fun _ o => 100 + o

/-- Fixture one: two leading optional items and one required item, range
bank 0, offsets 5 to 8.  The word at offset 6 matches neither optional
item, the word at offset 5 matches the first optional item. -/
def cx1sp : SearchPattern :=
  { dataWords := 0
    noReturn := false
    pattern := [⟨false, ["W105"], []⟩, ⟨false, ["WZZZ"], []⟩, ⟨true, ["W107"], []⟩]
    ranges := [⟨0, .num 5, 8⟩] }

/-- Fixture one catalog: a single symbol S. -/
def cx1cat : Catalog := [("S", [cx1sp])]

/-- Fixture two: symbol A never matches, symbol B has a symbolic range
start naming A. -/
def cx2core : Int → Int → Int := fun _ o => 200 + o

/-- Fixture two, pattern of A: requires an opcode that never occurs. -/
def cx2spA : SearchPattern :=
  { dataWords := 0, noReturn := false
    pattern := [⟨true, ["WNOPE"], []⟩], ranges := [⟨0, .num 0, 3⟩] }

/-- Fixture two, pattern of B: requires the opcode at offset 2, searched
in a range whose start is the symbol reference A. -/
def cx2spB : SearchPattern :=
  { dataWords := 0, noReturn := false
    pattern := [⟨true, ["W202"], []⟩], ranges := [⟨0, .sym "A", 6⟩] }

/-- Fixture two catalog: A then B. -/
def cx2cat : Catalog := [("A", [cx2spA]), ("B", [cx2spB])]

/-- Fixture three: A resolves at bank 2 offset 0 (fixed-fixed 0o4000);
the pattern of B names A twice in one operand list. -/
def cx3core : Int → Int → Int := fun _ o => 300 + o

/-- Fixture three, pattern of A. -/
def cx3spA : SearchPattern :=
  { dataWords := 0, noReturn := false
    pattern := [⟨true, ["W300"], []⟩], ranges := [⟨2, .num 0, 3⟩] }

/-- Fixture three, pattern of B, with the duplicated placeholder. -/
def cx3spB : SearchPattern :=
  { dataWords := 0, noReturn := false
    pattern := [⟨true, ["WX"], ["A", "A"]⟩], ranges := [⟨0, .num 0, 1⟩] }

/-- Fixture three catalog. -/
def cx3cat : Catalog := [("A", [cx3spA]), ("B", [cx3spB])]

/-- Fixture four: a malformed catalog.  The variant of S has a trailing
optional item, and that item carries an operand placeholder GHOST naming
a symbol that exists nowhere; the variant of U requires operand GHOST and
therefore can never match. -/
def cx4spS : SearchPattern :=
  { dataWords := 0, noReturn := false
    pattern := [⟨true, ["W105"], []⟩, ⟨false, ["WOPT"], ["GHOST"]⟩]
    ranges := [⟨0, .num 5, 7⟩] }

/-- Fixture four, pattern of U: operand placeholder never rewritten. -/
def cx4spU : SearchPattern :=
  { dataWords := 0, noReturn := false
    pattern := [⟨true, [], ["GHOST"]⟩], ranges := [⟨0, .num 0, 2⟩] }

/-- Fixture four catalog. -/
def cx4cat : Catalog := [("S", [cx4spS]), ("U", [cx4spU])]

/-- Fixture five: like fixture one but with a nonzero data-word count, to
exhibit the sixth tuple slot written by the backward-phase store. -/
def cx5sp : SearchPattern :=
  { dataWords := 7
    noReturn := false
    pattern := [⟨false, ["W105"], []⟩, ⟨true, ["W106"], []⟩]
    ranges := [⟨0, .num 4, 8⟩] }

/-- Fixture five catalog. -/
def cx5cat : Catalog := [("S", [cx5sp])]

/-- Fixture six: a catalog whose only symbol B has a symbolic range start
naming C, a symbol that is not in this catalog at all.  From an empty
global dictionary the scan raises; after an earlier scan of a catalog
containing C, the stale entry of C changes the behavior. -/
def cx6spB : SearchPattern :=
  { dataWords := 0, noReturn := false
    pattern := [⟨true, ["W202"], []⟩], ranges := [⟨0, .sym "C", 4⟩] }

/-- Fixture six catalog. -/
def cx6cat : Catalog := [("B", [cx6spB])]

/-- Fixture six, the earlier catalog whose scan leaves C in the global
dictionary. -/
def cx6spC : SearchPattern :=
  { dataWords := 0, noReturn := false
    pattern := [⟨true, ["W201"], []⟩], ranges := [⟨0, .num 0, 3⟩] }

/-- Fixture six, catalog of the earlier scan. -/
def cx6catC : Catalog := [("C", [cx6spC])]

/-- Fixture six, ambient global dictionary: the result of scanning the
catalog that contains C, starting from an empty dictionary. -/
def cx6amb : Registry := (searchSpecial cx2core cx6catC exDecode []).1

/-- Fixture for the backward-stop witness: a leading optional item with a
non-empty operand list that the instruction below fails to satisfy. -/
def cw1sp : SearchPattern :=
  { dataWords := 0, noReturn := false
    pattern := [⟨false, ["W105"], ["XNO"]⟩, ⟨true, ["W107"], []⟩]
    ranges := [⟨0, .num 5, 8⟩] }

/-- Fixture for the all-optional-pattern witness: a variant whose only
item is optional, so the leading-optional seek runs off the end. -/
def cw10sp : SearchPattern :=
  { dataWords := 0, noReturn := false
    pattern := [⟨false, ["W100"], []⟩]
    ranges := [⟨0, .num 0, 4⟩] }

/-- The entry stored for A by the fixture-three scan. -/
def cx7e : Entry := ⟨2, 0, 2048, some cx3spA, "A", .num 0⟩

/-- The canonical-address well-formedness of a stored entry: the
fixed-fixed slot is bank times 0o2000 plus offset for banks 2 and 3 and
the sentinel -1 otherwise. -/
def canonicalOK (e : Entry) : Prop :=
  e.fixedFixed = if e.bank = 2 ∨ e.bank = 3 then e.bank * 0o2000 + e.offset else -1

/-- A catalog is benign when every variant has at least one required item
and every range start is a numeric literal. -/
def benign (cat : Catalog) : Prop :=
  ∀ p ∈ cat, ∀ sp ∈ p.2,
    (∃ it ∈ sp.pattern, it.required = true) ∧ ∀ r ∈ sp.ranges, r.start.isNum = true

theorem regFind_regSet (reg : Registry) (s k : String) (v : Entry) :
    regFind (regSet reg s v) k = if s = k then some v else regFind reg k := by
  induction reg with
  | nil => simp [regSet, regFind]
  | cons p rest ih =>
    obtain ⟨k0, w⟩ := p
    by_cases h0 : k0 = s
    · subst h0
      by_cases hk : k0 = k
      · subst hk; simp [regSet, regFind]
      · simp [regSet, regFind, hk]
    · by_cases hk : k0 = k
      · subst hk
        have hs : ¬ s = k0 := fun h => h0 h.symm
        simp [regSet, regFind, h0, hs]
      · simp [regSet, regFind, h0, hk, ih]

theorem regFind_regSet_ne {s k : String} (h : s ≠ k) (reg : Registry) (v : Entry) :
    regFind (regSet reg s v) k = regFind reg k := by
  rw [regFind_regSet]; simp [h]

theorem regFind_regSet_self (reg : Registry) (s : String) (v : Entry) :
    regFind (regSet reg s v) s = some v := by
  rw [regFind_regSet]; simp

theorem backwardLoop_frame (core : Int → Int → Int)
    (decode : Int → Bool → String × String × Bool)
    (symbol : String) (sp : SearchPattern) (bank s0 : Int)
    {k : String} (hk : k ≠ symbol) :
    ∀ (n : Nat) (offset : Int) (reg : Registry),
      regFind (backwardLoop core decode symbol sp bank s0 n offset reg) k
        = regFind reg k := by
  intro n
  induction n with
  | zero => intro offset reg; simp [backwardLoop]
  | succ n ih =>
    intro offset reg
    simp only [backwardLoop]
    by_cases h1 : s0 < offset
    · rw [if_pos h1]
      by_cases h2 : (decode (core bank (offset - 1)) false).1
          ∈ (sp.pattern.getD n junkItem).opcodes
      · rw [if_pos h2]
        by_cases h3 : (sp.pattern.getD n junkItem).operands = []
            ∨ (decode (core bank (offset - 1)) false).2.1
                ∈ (sp.pattern.getD n junkItem).operands
        · rw [if_pos h3, ih, regFind_regSet_ne (fun h => hk h.symm)]
        · rw [if_neg h3]
      · rw [if_neg h2]; exact ih _ _
    · rw [if_neg h1]

theorem finalize_frame (core : Int → Int → Int)
    (decode : Int → Bool → String × String × Bool)
    (symbol : String) (sp : SearchPattern) (bank s0 T : Int) (reg : Registry)
    {k : String} (hk : k ≠ symbol) :
    regFind (finalize core decode symbol sp bank s0 T reg) k = regFind reg k := by
  simp only [finalize]
  cases hseek : seekRequired sp.pattern 0 with
  | none => exact regFind_regSet_ne (fun h => hk h.symm) _ _
  | some i0 =>
    rw [backwardLoop_frame core decode symbol sp bank s0 hk,
      regFind_regSet_ne (fun h => hk h.symm)]

theorem scanOffsets_frame (core : Int → Int → Int)
    (decode : Int → Bool → String × String × Bool)
    (symbol : String) (sp : SearchPattern) (bank s0 stop : Int)
    {k : String} (hk : k ≠ symbol) :
    ∀ (fuel : Nat) (T : Int) (reg : Registry),
      regFind (scanOffsets core decode symbol sp bank s0 stop fuel T reg).1 k
        = regFind reg k := by
  intro fuel
  induction fuel with
  | zero => intro T reg; simp [scanOffsets]
  | succ fuel ih =>
    intro T reg
    simp only [scanOffsets]
    cases hseek : seekRequired sp.pattern 0 with
    | none => rfl
    | some i0 =>
      simp only []
      split_ifs with h1
      · exact finalize_frame core decode symbol sp bank s0 T reg hk
      · exact ih _ _

theorem processRanges_frame (core : Int → Int → Int)
    (decode : Int → Bool → String × String × Bool)
    (symbol : String) (sp : SearchPattern)
    {k : String} (hk : k ≠ symbol) :
    ∀ (rs : List AddressRange) (reg : Registry),
      regFind (processRanges core decode symbol sp rs reg).1 k = regFind reg k := by
  intro rs
  induction rs with
  | nil => intro reg; simp [processRanges]
  | cons r rest ih =>
    intro reg
    simp only [processRanges]
    cases hres : resolveStart reg r.start with
    | none => rfl
    | some s0 =>
      simp only []
      split_ifs with h1 h2
      · exact scanOffsets_frame core decode symbol sp r.bank s0 r.stop hk _ _ _
      · rw [ih, scanOffsets_frame core decode symbol sp r.bank s0 r.stop hk]
      · exact scanOffsets_frame core decode symbol sp r.bank s0 r.stop hk _ _ _

theorem processVariants_frame (core : Int → Int → Int)
    (decode : Int → Bool → String × String × Bool)
    (symbol : String) {k : String} (hk : k ≠ symbol) :
    ∀ (sps : List SearchPattern) (reg : Registry),
      regFind (processVariants core decode symbol sps reg).1 k = regFind reg k := by
  intro sps
  induction sps with
  | nil => intro reg; simp [processVariants]
  | cons sp rest ih =>
    intro reg
    simp only [processVariants]
    split_ifs with h1 h2
    · exact processRanges_frame core decode symbol sp hk _ _
    · rw [ih, processRanges_frame core decode symbol sp hk]
    · exact processRanges_frame core decode symbol sp hk _ _

theorem processSymbols_frame (core : Int → Int → Int)
    (decode : Int → Bool → String × String × Bool) :
    ∀ (keys : List String) (cat : Catalog) (reg : Registry) {k : String},
      k ∉ keys →
      regFind (processSymbols core decode keys cat reg).1 k = regFind reg k := by
  intro keys
  induction keys with
  | nil => intro cat reg k _; simp [processSymbols]
  | cons symbol rest ih =>
    intro cat reg k hk
    have hk1 : k ≠ symbol := fun h => hk (by simp [h])
    have hk2 : k ∉ rest := fun h => hk (by simp [h])
    simp only [processSymbols]
    by_cases h1 : (processVariants core decode symbol
        ((catFind cat symbol).getD []) (regSet reg symbol (nfEntry symbol))).2.2 = true
    · rw [if_pos h1, ih _ _ hk2, processVariants_frame core decode symbol hk1,
        regFind_regSet_ne (fun h => hk1 h.symm)]
    · rw [if_neg h1]
      exact (processVariants_frame core decode symbol hk1 _ _).trans
        (regFind_regSet_ne (fun h => hk1 h.symm) _ _)

theorem canonicalOK_nf (symbol : String) : canonicalOK (nfEntry symbol) := by
  simp [canonicalOK, nfEntry]

theorem canonicalOK_store (bank T : Int) (spo : Option SearchPattern)
    (s : String) (d : SixthField) :
    canonicalOK ⟨bank, T, if bank = 2 ∨ bank = 3 then bank * 0o2000 + T else -1, spo, s, d⟩ := by
  simp [canonicalOK]

theorem regOK_set {reg : Registry} (hreg : ∀ k e, regFind reg k = some e → canonicalOK e)
    {v : Entry} (hv : canonicalOK v) (s : String) :
    ∀ k e, regFind (regSet reg s v) k = some e → canonicalOK e := by
  intro k e h
  rw [regFind_regSet] at h
  split_ifs at h with hs
  · injection h with h2; exact h2 ▸ hv
  · exact hreg k e h

theorem backwardLoop_regOK (core : Int → Int → Int)
    (decode : Int → Bool → String × String × Bool)
    (symbol : String) (sp : SearchPattern) (bank s0 : Int) :
    ∀ (n : Nat) (offset : Int) (reg : Registry),
      (∀ k e, regFind reg k = some e → canonicalOK e) →
      ∀ k e, regFind (backwardLoop core decode symbol sp bank s0 n offset reg) k = some e →
        canonicalOK e := by
  intro n
  induction n with
  | zero => intro offset reg hreg; simpa [backwardLoop] using hreg
  | succ n ih =>
    intro offset reg hreg
    simp only [backwardLoop]
    by_cases h1 : s0 < offset
    · rw [if_pos h1]
      by_cases h2 : (decode (core bank (offset - 1)) false).1
          ∈ (sp.pattern.getD n junkItem).opcodes
      · rw [if_pos h2]
        by_cases h3 : (sp.pattern.getD n junkItem).operands = []
            ∨ (decode (core bank (offset - 1)) false).2.1
                ∈ (sp.pattern.getD n junkItem).operands
        · rw [if_pos h3]
          exact ih _ _ (regOK_set hreg (canonicalOK_store bank (offset - 1) _ _ _) symbol)
        · rw [if_neg h3]; exact hreg
      · rw [if_neg h2]; exact ih _ _ hreg
    · rw [if_neg h1]; exact hreg

theorem finalize_regOK (core : Int → Int → Int)
    (decode : Int → Bool → String × String × Bool)
    (symbol : String) (sp : SearchPattern) (bank s0 T : Int) (reg : Registry)
    (hreg : ∀ k e, regFind reg k = some e → canonicalOK e) :
    ∀ k e, regFind (finalize core decode symbol sp bank s0 T reg) k = some e →
      canonicalOK e := by
  simp only [finalize]
  cases hseek : seekRequired sp.pattern 0 with
  | none => exact regOK_set hreg (canonicalOK_store bank T _ _ _) symbol
  | some i0 =>
    exact backwardLoop_regOK core decode symbol sp bank s0 i0 T _
      (regOK_set hreg (canonicalOK_store bank T _ _ _) symbol)

theorem scanOffsets_regOK (core : Int → Int → Int)
    (decode : Int → Bool → String × String × Bool)
    (symbol : String) (sp : SearchPattern) (bank s0 stop : Int) :
    ∀ (fuel : Nat) (T : Int) (reg : Registry),
      (∀ k e, regFind reg k = some e → canonicalOK e) →
      ∀ k e, regFind (scanOffsets core decode symbol sp bank s0 stop fuel T reg).1 k = some e →
        canonicalOK e := by
  intro fuel
  induction fuel with
  | zero => intro T reg hreg; simpa [scanOffsets] using hreg
  | succ fuel ih =>
    intro T reg hreg
    simp only [scanOffsets]
    cases hseek : seekRequired sp.pattern 0 with
    | none => exact hreg
    | some i0 =>
      simp only []
      split_ifs with h1
      · exact finalize_regOK core decode symbol sp bank s0 T reg hreg
      · exact ih _ _ hreg

theorem processRanges_regOK (core : Int → Int → Int)
    (decode : Int → Bool → String × String × Bool)
    (symbol : String) (sp : SearchPattern) :
    ∀ (rs : List AddressRange) (reg : Registry),
      (∀ k e, regFind reg k = some e → canonicalOK e) →
      ∀ k e, regFind (processRanges core decode symbol sp rs reg).1 k = some e →
        canonicalOK e := by
  intro rs
  induction rs with
  | nil => intro reg hreg; simpa [processRanges] using hreg
  | cons r rest ih =>
    intro reg hreg
    simp only [processRanges]
    cases hres : resolveStart reg r.start with
    | none => exact hreg
    | some s0 =>
      simp only []
      split_ifs with h1 h2
      · exact scanOffsets_regOK core decode symbol sp r.bank s0 r.stop _ _ _ hreg
      · exact ih _ (scanOffsets_regOK core decode symbol sp r.bank s0 r.stop _ _ _ hreg)
      · exact scanOffsets_regOK core decode symbol sp r.bank s0 r.stop _ _ _ hreg

theorem processVariants_regOK (core : Int → Int → Int)
    (decode : Int → Bool → String × String × Bool) (symbol : String) :
    ∀ (sps : List SearchPattern) (reg : Registry),
      (∀ k e, regFind reg k = some e → canonicalOK e) →
      ∀ k e, regFind (processVariants core decode symbol sps reg).1 k = some e →
        canonicalOK e := by
  intro sps
  induction sps with
  | nil => intro reg hreg; simpa [processVariants] using hreg
  | cons sp rest ih =>
    intro reg hreg
    simp only [processVariants]
    split_ifs with h1 h2
    · exact processRanges_regOK core decode symbol sp _ _ hreg
    · exact ih _ (processRanges_regOK core decode symbol sp _ _ hreg)
    · exact processRanges_regOK core decode symbol sp _ _ hreg

theorem processSymbols_regOK (core : Int → Int → Int)
    (decode : Int → Bool → String × String × Bool) :
    ∀ (keys : List String) (cat : Catalog) (reg : Registry),
      (∀ k e, regFind reg k = some e → canonicalOK e) →
      ∀ k e, regFind (processSymbols core decode keys cat reg).1 k = some e →
        canonicalOK e := by
  intro keys
  induction keys with
  | nil => intro cat reg hreg; simpa [processSymbols] using hreg
  | cons symbol rest ih =>
    intro cat reg hreg
    have hreg1 : ∀ k e, regFind (processVariants core decode symbol
        ((catFind cat symbol).getD []) (regSet reg symbol (nfEntry symbol))).1 k = some e →
        canonicalOK e :=
      processVariants_regOK core decode symbol _ _
        (regOK_set hreg (canonicalOK_nf symbol) symbol)
    simp only [processSymbols]
    by_cases h1 : (processVariants core decode symbol
        ((catFind cat symbol).getD []) (regSet reg symbol (nfEntry symbol))).2.2 = true
    · rw [if_pos h1]; exact ih _ _ hreg1
    · rw [if_neg h1]; exact hreg1

theorem seekRequired_isSome_iff :
    ∀ (items : List PatternItem) (i : Nat),
      (seekRequired items i).isSome = true ↔ ∃ it ∈ items, it.required = true := by
  intro items
  induction items with
  | nil => intro i; simp [seekRequired]
  | cons it rest ih =>
    intro i
    by_cases h : it.required = true
    · simp [seekRequired, h]
    · simp [seekRequired, h, ih (i + 1)]

theorem scanOffsets_ok (core : Int → Int → Int)
    (decode : Int → Bool → String × String × Bool)
    (symbol : String) (sp : SearchPattern) (bank s0 stop : Int) {i0 : Nat}
    (hseek : seekRequired sp.pattern 0 = some i0) :
    ∀ (fuel : Nat) (T : Int) (reg : Registry),
      (scanOffsets core decode symbol sp bank s0 stop fuel T reg).2.2 = true := by
  intro fuel
  induction fuel with
  | zero => intro T reg; rfl
  | succ fuel ih =>
    intro T reg
    simp only [scanOffsets, hseek]
    split_ifs with h1
    · rfl
    · exact ih _ _

theorem processRanges_ok (core : Int → Int → Int)
    (decode : Int → Bool → String × String × Bool)
    (symbol : String) (sp : SearchPattern) {i0 : Nat}
    (hseek : seekRequired sp.pattern 0 = some i0) :
    ∀ (rs : List AddressRange), (∀ r ∈ rs, r.start.isNum = true) →
      ∀ (reg : Registry),
        (processRanges core decode symbol sp rs reg).2.2 = true := by
  intro rs
  induction rs with
  | nil => intro _ reg; rfl
  | cons r rest ih =>
    intro hnum reg
    obtain ⟨n, hn⟩ : ∃ n, r.start = StartSpec.num n := by
      cases hs : r.start with
      | num n => exact ⟨n, rfl⟩
      | sym s =>
        have := hnum r (by simp)
        rw [hs] at this
        simp [StartSpec.isNum] at this
    simp only [processRanges, hn, resolveStart]
    rw [if_pos (scanOffsets_ok core decode symbol sp r.bank n r.stop hseek _ _ _)]
    split_ifs with h2
    · rfl
    · exact ih (fun q hq => hnum q (by simp [hq])) _

theorem processVariants_ok (core : Int → Int → Int)
    (decode : Int → Bool → String × String × Bool) (symbol : String) :
    ∀ (sps : List SearchPattern),
      (∀ sp ∈ sps, (seekRequired sp.pattern 0).isSome = true
        ∧ ∀ r ∈ sp.ranges, r.start.isNum = true) →
      ∀ (reg : Registry),
        (processVariants core decode symbol sps reg).2.2 = true := by
  intro sps
  induction sps with
  | nil => intro _ reg; rfl
  | cons sp rest ih =>
    intro hb reg
    obtain ⟨hseek0, hnum⟩ := hb sp (by simp)
    obtain ⟨i0, hseek⟩ := Option.isSome_iff_exists.mp hseek0
    simp only [processVariants]
    rw [if_pos (processRanges_ok core decode symbol sp hseek sp.ranges hnum reg)]
    split_ifs with h2
    · rfl
    · exact ih (fun q hq => hb q (by simp [hq])) _

theorem catFind_mem :
    ∀ (cat : Catalog) (s : String) (v : List SearchPattern),
      catFind cat s = some v → (s, v) ∈ cat := by
  intro cat
  induction cat with
  | nil => intro s v h; simp [catFind] at h
  | cons p rest ih =>
    intro s v h
    simp only [catFind] at h
    split_ifs at h with hp
    · injection h with h2
      have hpv : (s, v) = p := by rw [← hp, ← h2]
      rw [hpv]
      exact List.mem_cons_self _ _
    · right
      exact ih s v h

theorem benign_rewriteCatalog {cat : Catalog} (hb : benign cat) (s l : String) :
    benign (rewriteCatalog cat s l) := by
  intro p hp sp hsp
  simp only [rewriteCatalog, List.mem_map] at hp
  obtain ⟨q, hq, rfl⟩ := hp
  simp only [List.mem_map] at hsp
  obtain ⟨sp0, hsp0, rfl⟩ := hsp
  obtain ⟨⟨it0, hit0, hreq⟩, hr⟩ := hb q hq sp0 hsp0
  constructor
  · refine ⟨{it0 with operands := replaceFirst it0.operands s l}, ?_, hreq⟩
    simp only [List.mem_map]
    exact ⟨it0, hit0, rfl⟩
  · intro r hrr
    exact hr r hrr

theorem processSymbols_ok (core : Int → Int → Int)
    (decode : Int → Bool → String × String × Bool) :
    ∀ (keys : List String) (cat : Catalog) (reg : Registry), benign cat →
      (processSymbols core decode keys cat reg).2.2 = true := by
  intro keys
  induction keys with
  | nil => intro cat reg _; rfl
  | cons symbol rest ih =>
    intro cat reg hb
    have hv : (processVariants core decode symbol
        ((catFind cat symbol).getD []) (regSet reg symbol (nfEntry symbol))).2.2 = true := by
      cases hcf : catFind cat symbol with
      | none => rfl
      | some sps =>
        refine processVariants_ok core decode symbol sps (fun sp hsp => ?_) _
        obtain ⟨⟨it0, hit0, hreq⟩, hr⟩ := hb (symbol, sps) (catFind_mem cat symbol sps hcf) sp hsp
        exact ⟨(seekRequired_isSome_iff sp.pattern 0).mpr ⟨it0, hit0, hreq⟩, hr⟩
    simp only [processSymbols]
    rw [if_pos hv]
    apply ih
    split_ifs with h1
    · cases hfd : regFind (processVariants core decode symbol
          ((catFind cat symbol).getD []) (regSet reg symbol (nfEntry symbol))).1 symbol with
      | none => simpa [hfd] using hb
      | some e =>
        by_cases he : e.fixedFixed = -1
        · simpa [hfd, he] using hb
        · simpa [hfd, he] using benign_rewriteCatalog hb symbol (fmt04o e.fixedFixed)
    · exact hb

theorem scanOffsets_first_match (core : Int → Int → Int)
    (decode : Int → Bool → String × String × Bool)
    (symbol : String) (sp : SearchPattern) (bank s0 stop : Int) {i0 : Nat}
    (hseek : seekRequired sp.pattern 0 = some i0) :
    ∀ (fuel k : Nat) (T0 : Int) (reg : Registry),
      forwardLoop core decode bank stop sp.pattern (sp.pattern.length + 1)
        (T0 + (k : Int)) (-1) i0 false "" "" = true →
      (∀ i : Nat, i < k → forwardLoop core decode bank stop sp.pattern
        (sp.pattern.length + 1) (T0 + (i : Int)) (-1) i0 false "" "" = false) →
      k < fuel →
      scanOffsets core decode symbol sp bank s0 stop fuel T0 reg
        = (finalize core decode symbol sp bank s0 (T0 + (k : Int)) reg, true, true) := by
  intro fuel
  induction fuel with
  | zero => intro k T0 reg _ _ hk; exact absurd hk (Nat.not_lt_zero k)
  | succ fuel ih =>
    intro k T0 reg hT hmin hk
    simp only [scanOffsets, hseek]
    cases k with
    | zero =>
      rw [Nat.cast_zero, add_zero] at hT ⊢
      rw [if_pos hT]
    | succ k1 =>
      have h0 : forwardLoop core decode bank stop sp.pattern (sp.pattern.length + 1)
          T0 (-1) i0 false "" "" = false := by
        have := hmin 0 (Nat.succ_pos k1)
        rwa [Nat.cast_zero, add_zero] at this
      rw [if_neg (by simp [h0])]
      have harg : T0 + ((k1 + 1 : Nat) : Int) = (T0 + 1) + (k1 : Int) := by
        push_cast; ring
      rw [harg] at hT ⊢
      refine ih k1 (T0 + 1) reg hT ?_ (Nat.lt_of_succ_lt_succ hk)
      intro i hi
      have hmi := hmin (i + 1) (Nat.succ_lt_succ hi)
      have harg2 : T0 + ((i + 1 : Nat) : Int) = (T0 + 1) + (i : Int) := by
        push_cast; ring
      rwa [harg2] at hmi

theorem backwardLoop_lower_bound (core : Int → Int → Int)
    (decode : Int → Bool → String × String × Bool)
    (symbol : String) (sp : SearchPattern) (bank s0 : Int) :
    ∀ (n : Nat) (offset : Int) (reg : Registry) (e : Entry),
      regFind (backwardLoop core decode symbol sp bank s0 n offset reg) symbol = some e →
      s0 ≤ e.offset ∨ regFind reg symbol = some e := by
  intro n
  induction n with
  | zero => intro offset reg e h; right; simpa [backwardLoop] using h
  | succ n ih =>
    intro offset reg e h
    simp only [backwardLoop] at h
    by_cases h1 : s0 < offset
    · rw [if_pos h1] at h
      by_cases h2 : (decode (core bank (offset - 1)) false).1
          ∈ (sp.pattern.getD n junkItem).opcodes
      · rw [if_pos h2] at h
        by_cases h3 : (sp.pattern.getD n junkItem).operands = []
            ∨ (decode (core bank (offset - 1)) false).2.1
                ∈ (sp.pattern.getD n junkItem).operands
        · rw [if_pos h3] at h
          rcases ih _ _ _ h with hle | hfind
          · exact Or.inl hle
          · rw [regFind_regSet_self] at hfind
            injection hfind with h4
            left
            rw [← h4]
            have hb : s0 ≤ offset - 1 := by omega
            exact hb
        · rw [if_neg h3] at h; right; exact h
      · rw [if_neg h2] at h; exact ih _ _ _ h
    · rw [if_neg h1] at h; right; exact h

theorem replaceFirst_not_mem :
    ∀ (ops : List String) (s l : String), s ∉ ops → replaceFirst ops s l = ops := by
  intro ops s l
  induction ops with
  | nil => intro _; rfl
  | cons o rest ih =>
    intro h
    have ho : ¬ o = s := fun ho => h (by simp [ho])
    have hr : s ∉ rest := fun hr => h (by simp [hr])
    simp only [replaceFirst]
    rw [if_neg ho, ih hr]

theorem replaceFirst_append :
    ∀ (pre post : List String) (s l : String), s ∉ pre →
      replaceFirst (pre ++ s :: post) s l = pre ++ l :: post := by
  intro pre post s l
  induction pre with
  | nil => intro _; simp [replaceFirst]
  | cons o rest ih =>
    intro h
    have ho : ¬ o = s := fun ho => h (by simp [ho])
    have hr : s ∉ rest := fun hr => h (by simp [hr])
    simp only [List.cons_append, replaceFirst]
    rw [if_neg ho]
    exact congrArg (o :: ·) (ih hr)

/-- Claim C1, counterexample.  In fixture one the resolved range start is
5 and the scan reports symbol S exactly at offset 5: the backward phase
moved the reported offset TO the range start, although the optional item
at index 1 failed its comparison at offset 6 (its opcode list does not
contain the mnemonic decoded there), so the extension also continued past
a failed comparison.  This contradicts the claim that the reported offset
never reaches the start and that extension stops at the first failed
comparison. -/
theorem C1_counterexample :
    (searchSpecial cx1core cx1cat exDecode []).1
      = [("S", ⟨0, 5, -1, some cx1sp, "S", SixthField.pat cx1sp.pattern⟩)]
    ∧ (exDecode (cx1core 0 6) false).1 ∉ (cx1sp.pattern.getD 1 junkItem).opcodes := by
  constructor
  · rfl
  · decide

/-- Claim C1, amended.  The backward phase never moves the reported
offset strictly below the resolved range start (it may land exactly on
it): any entry it leaves for the symbol either was already present or has
offset at least the start.  An optional item whose opcode matches but
whose non-empty operand list rejects the operand stops the extension at
once, keeping the stores made so far.  An optional item whose opcode list
does not contain the mnemonic does not store, but the walk continues with
the earlier items, so a failed opcode comparison does not stop the
extension. -/
theorem C1_amended_backward :
    (∀ (core : Int → Int → Int) (decode : Int → Bool → String × String × Bool)
       (symbol : String) (sp : SearchPattern) (bank s0 : Int)
       (n : Nat) (offset : Int) (reg : Registry) (e : Entry),
       regFind (backwardLoop core decode symbol sp bank s0 n offset reg) symbol = some e →
       s0 ≤ e.offset ∨ regFind reg symbol = some e)
  ∧ (∀ (core : Int → Int → Int) (decode : Int → Bool → String × String × Bool)
       (symbol : String) (sp : SearchPattern) (bank s0 : Int)
       (n : Nat) (offset : Int) (reg : Registry),
       s0 < offset →
       (decode (core bank (offset - 1)) false).1 ∈ (sp.pattern.getD n junkItem).opcodes →
       (sp.pattern.getD n junkItem).operands ≠ [] →
       (decode (core bank (offset - 1)) false).2.1 ∉ (sp.pattern.getD n junkItem).operands →
       backwardLoop core decode symbol sp bank s0 (n + 1) offset reg = reg)
  ∧ (∀ (core : Int → Int → Int) (decode : Int → Bool → String × String × Bool)
       (symbol : String) (sp : SearchPattern) (bank s0 : Int)
       (n : Nat) (offset : Int) (reg : Registry),
       s0 < offset →
       (decode (core bank (offset - 1)) false).1 ∉ (sp.pattern.getD n junkItem).opcodes →
       backwardLoop core decode symbol sp bank s0 (n + 1) offset reg
         = backwardLoop core decode symbol sp bank s0 n (offset - 1) reg) := by
  refine ⟨?_, ?_, ?_⟩
  · intro core decode symbol sp bank s0 n offset reg e h
    exact backwardLoop_lower_bound core decode symbol sp bank s0 n offset reg e h
  · intro core decode symbol sp bank s0 n offset reg h1 h2 h3 h4
    simp only [backwardLoop]
    rw [if_pos h1, if_pos h2, if_neg (fun hor => hor.elim h3 h4)]
  · intro core decode symbol sp bank s0 n offset reg h1 h2
    simp only [backwardLoop]
    rw [if_pos h1, if_neg h2]

/-- Claim C1, witness for the amended statement: a concrete backward step
whose opcode matches and whose operand comparison fails returns the
registry unchanged. -/
theorem C1_amended_backward_witness :
    backwardLoop cx1core exDecode "S" cw1sp 0 5 (0 + 1) 6 [] = [] :=
  C1_amended_backward.2.1 cx1core exDecode "S" cw1sp 0 5 0 6 []
    (by decide) (by decide) (by decide) (by decide)

/-- Claim C2, counterexample.  In fixture two, symbol A ends Unresolved
(sentinel entry with offset -1), and the range of symbol B starts with
the symbol reference A.  The claim says that range is then skipped
entirely, leaving B Unresolved; the code instead computes -1 + 1 = 0 and
scans the range from offset 0, resolving B at offset 2. -/
theorem C2_counterexample :
    (searchSpecial cx2core cx2cat exDecode []).1
      = [("A", nfEntry "A"), ("B", ⟨0, 2, -1, some cx2spB, "B", SixthField.num 0⟩)]
    ∧ (searchSpecial cx2core cx2cat exDecode []).2.2 = true := by
  constructor
  · rfl
  · rfl

/-- Claim C2, amended.  A symbol-reference start that names any key of
the registry, resolved or Unresolved, resolves to that entry offset plus
one (so 0 for the Unresolved sentinel offset -1), and the range is
scanned from there, never skipped.  A symbol-reference start that names
no key of the registry is an error: the scan aborts at that range and the
sibling ranges are not attempted. -/
theorem C2_amended_range_start :
    (∀ (reg : Registry) (s : String) (e : Entry),
       regFind reg s = some e →
       resolveStart reg (StartSpec.sym s) = some (e.offset + 1))
  ∧ (∀ (reg : Registry) (s : String),
       regFind reg s = none →
       resolveStart reg (StartSpec.sym s) = none)
  ∧ (∀ (core : Int → Int → Int) (decode : Int → Bool → String × String × Bool)
       (symbol : String) (sp : SearchPattern) (bank stop : Int)
       (rest : List AddressRange) (reg : Registry) (s : String),
       regFind reg s = none →
       processRanges core decode symbol sp (⟨bank, StartSpec.sym s, stop⟩ :: rest) reg
         = (reg, false, false)) := by
  refine ⟨?_, ?_, ?_⟩
  · intro reg s e h; simp [resolveStart, h]
  · intro reg s h; simp [resolveStart, h]
  · intro core decode symbol sp bank stop rest reg s h
    simp [processRanges, resolveStart, h]

/-- Claim C2, witness for the amended statement: the Unresolved sentinel
for A makes a symbol-reference start resolve to -1 + 1. -/
theorem C2_amended_range_start_witness :
    resolveStart [("A", nfEntry "A")] (StartSpec.sym "A")
      = some ((nfEntry "A").offset + 1) :=
  C2_amended_range_start.1 [("A", nfEntry "A")] "A" (nfEntry "A") (by rfl)

/-- Claim C3, counterexample.  In fixture three, A resolves with
fixed-fixed address 0o4000 and the operand list of B names A twice.  The
claim says every entry equal to A is replaced; the code replaces only the
first occurrence, leaving the operand list as 4000 followed by the
untouched second A. -/
theorem C3_counterexample :
    catFind (searchSpecial cx3core cx3cat exDecode []).2.1 "B"
      = some [{ cx3spB with pattern := [⟨true, ["WX"], ["4000", "A"]⟩] }]
    ∧ (["4000", "A"] : List String) ≠ ["4000", "4000"] := by
  constructor
  · rfl
  · decide

/-- Claim C3, amended.  When a symbol resolves with a fixed-fixed
address, a single rewrite pass runs at that point: in every operand list
of every pattern item of every variant, the FIRST entry equal to the
symbol name is replaced with the four-digit octal text of the address;
later duplicates in the same list and entries not equal to the name are
untouched, and an operand list not containing the name is unchanged.
When the symbol is found without a fixed-fixed address (sentinel -1) the
catalog is not rewritten at all. -/
theorem C3_amended_rewrite :
    (∀ (ops : List String) (s l : String), s ∉ ops → replaceFirst ops s l = ops)
  ∧ (∀ (pre post : List String) (s l : String), s ∉ pre →
       replaceFirst (pre ++ s :: post) s l = pre ++ l :: post)
  ∧ (∀ (core : Int → Int → Int) (decode : Int → Bool → String × String × Bool)
       (symbol : String) (rest : List String) (cat : Catalog)
       (reg reg1 : Registry) (e : Entry),
       processVariants core decode symbol ((catFind cat symbol).getD [])
           (regSet reg symbol (nfEntry symbol)) = (reg1, true, true) →
       regFind reg1 symbol = some e →
       e.fixedFixed ≠ -1 →
       processSymbols core decode (symbol :: rest) cat reg
         = processSymbols core decode rest
             (rewriteCatalog cat symbol (fmt04o e.fixedFixed)) reg1)
  ∧ (∀ (core : Int → Int → Int) (decode : Int → Bool → String × String × Bool)
       (symbol : String) (rest : List String) (cat : Catalog)
       (reg reg1 : Registry) (e : Entry),
       processVariants core decode symbol ((catFind cat symbol).getD [])
           (regSet reg symbol (nfEntry symbol)) = (reg1, true, true) →
       regFind reg1 symbol = some e →
       e.fixedFixed = -1 →
       processSymbols core decode (symbol :: rest) cat reg
         = processSymbols core decode rest cat reg1) := by
  refine ⟨replaceFirst_not_mem, replaceFirst_append, ?_, ?_⟩
  · intro core decode symbol rest cat reg reg1 e hv he hne
    simp only [processSymbols, hv]
    simp [he, hne]
  · intro core decode symbol rest cat reg reg1 e hv he hl
    simp only [processSymbols, hv]
    simp [he, hl]

/-- Claim C3, witness for the amended statement: replacing A by 4000 in
an operand list that names A twice touches only the first occurrence. -/
theorem C3_amended_rewrite_witness :
    replaceFirst (["B"] ++ "A" :: ["A"]) "A" "4000" = ["B"] ++ "4000" :: ["A"] :=
  C3_amended_rewrite.2.1 ["B"] ["A"] "A" "4000" (by decide)

/-- Claim C4, counterexample.  Fixture four is malformed in both senses
of the claim: the variant of S has a trailing optional item, and that
item and the variant of U carry the operand placeholder GHOST naming a
symbol that can never resolve.  The claim says construction fails before
scanning starts; the code scans anyway, completes without any error
(ok component true), resolves S, and leaves U silently Unresolved. -/
theorem C4_counterexample :
    (searchSpecial cx1core cx4cat exDecode [])
      = ([("S", ⟨0, 5, -1, some cx4spS, "S", SixthField.num 0⟩), ("U", nfEntry "U")],
         cx4cat, true) := by
  rfl

/-- Claim C4, amended.  No construction-time validation exists.  As long
as every variant has at least one required item and every range start is
a numeric literal, the scan always completes without raising, whatever
trailing optional items or unresolvable operand placeholders the catalog
contains; such defects surface only as silently Unresolved symbols or
never-matching operand entries. -/
theorem C4_amended_no_validation (core : Int → Int → Int) (cat : Catalog)
    (decode : Int → Bool → String × String × Bool) (reg : Registry)
    (hreq : ∀ p ∈ cat, ∀ sp ∈ p.2, ∃ it ∈ sp.pattern, it.required = true)
    (hnum : ∀ p ∈ cat, ∀ sp ∈ p.2, ∀ r ∈ sp.ranges, r.start.isNum = true) :
    (searchSpecial core cat decode reg).2.2 = true := by
  have hb : benign cat := fun p hp sp hsp => ⟨hreq p hp sp hsp, hnum p hp sp hsp⟩
  simp only [searchSpecial]
  exact processSymbols_ok core decode (cat.map Prod.fst) cat reg hb

/-- Claim C4, witness for the amended statement: the malformed fixture
four satisfies the hypotheses and its scan completes without raising. -/
theorem C4_amended_no_validation_witness :
    (searchSpecial cx1core cx4cat exDecode []).2.2 = true :=
  C4_amended_no_validation cx1core cx4cat exDecode [] (by decide) (by decide)

/-- Claim C5: the backward-phase re-store writes the pattern item list,
not the data-word count, into the sixth tuple slot.  In fixture five the
matched variant has dataWords = 7, the backward phase shifts the match
from offset 6 to offset 5 and re-stores the entry, and the stored sixth
component is the pattern list, which is not the number 7 the claim and
the module docstring require. -/
theorem C5_dataWords_bug :
    (searchSpecial cx1core cx5cat exDecode []).1
      = [("S", ⟨0, 5, -1, some cx5sp, "S", SixthField.pat cx5sp.pattern⟩)]
    ∧ SixthField.pat cx5sp.pattern ≠ SixthField.num cx5sp.dataWords := by
  constructor
  · rfl
  · decide

/-- Claim C6, counterexample.  Scanning fixture six from a fresh global
dictionary raises (its only range start names C, absent from the
registry); scanning the identical catalog and core after an earlier scan
that resolved C completes and resolves B.  The ambient module-level
dictionary therefore influences the result: identical catalog, address
space and decoder do not give identical registry contents. -/
theorem C6_counterexample :
    (searchSpecial cx2core cx6cat exDecode []).2.2 = false
    ∧ (searchSpecial cx2core cx6cat exDecode cx6amb).2.2 = true
    ∧ regFind (searchSpecial cx2core cx6cat exDecode []).1 "B"
        ≠ regFind (searchSpecial cx2core cx6cat exDecode cx6amb).1 "B" := by
  refine ⟨rfl, rfl, ?_⟩
  decide

/-- Claim C6, amended.  The scan result is a function of the catalog, the
address space, the decoder AND the ambient module-level registry: ambient
entries for symbols outside the catalog pass through to the result
unchanged (the registry leaks across invocations), and symbol-reference
range starts read ambient entries (they influence scanning).  Only with
the ambient registry also fixed do repeated scans yield identical
contents. -/
theorem C6_amended_ambient :
    (∀ (core : Int → Int → Int) (cat : Catalog)
       (decode : Int → Bool → String × String × Bool) (reg : Registry) (k : String),
       k ∉ cat.map Prod.fst →
       regFind (searchSpecial core cat decode reg).1 k = regFind reg k)
  ∧ (∀ (reg : Registry) (s : String) (e : Entry),
       regFind reg s = some e →
       resolveStart reg (StartSpec.sym s) = some (e.offset + 1)) := by
  constructor
  · intro core cat decode reg k hk
    simp only [searchSpecial]
    exact processSymbols_frame core decode (cat.map Prod.fst) cat reg hk
  · intro reg s e h; simp [resolveStart, h]

/-- Claim C6, witness for the amended statement: the stale entry for C in
the ambient dictionary of fixture six passes through the scan of a
catalog that does not contain C. -/
theorem C6_amended_ambient_witness :
    regFind (searchSpecial cx2core cx6cat exDecode cx6amb).1 "C" = regFind cx6amb "C" :=
  C6_amended_ambient.1 cx2core cx6cat exDecode cx6amb "C" (by decide)

/-- Claim C7: every entry of the registry produced by a scan from a
well-formed registry has its fixed-fixed slot equal to
bank * 0o2000 + offset exactly for banks 2 and 3, and the sentinel -1
for every other bank. -/
theorem C7_canonical_address (core : Int → Int → Int) (cat : Catalog)
    (decode : Int → Bool → String × String × Bool) (reg : Registry)
    (hreg : ∀ k e, regFind reg k = some e → canonicalOK e) :
    ∀ k e, regFind (searchSpecial core cat decode reg).1 k = some e →
      e.fixedFixed = if e.bank = 2 ∨ e.bank = 3 then e.bank * 0o2000 + e.offset else -1 := by
  intro k e h
  simp only [searchSpecial] at h
  exact processSymbols_regOK core decode (cat.map Prod.fst) cat reg hreg k e h

/-- Claim C7, witness: the entry stored for A by the fixture-three scan,
in bank 2, carries fixed-fixed address 2 * 0o2000 + 0. -/
theorem C7_canonical_address_witness :
    cx7e.fixedFixed
      = if cx7e.bank = 2 ∨ cx7e.bank = 3 then cx7e.bank * 0o2000 + cx7e.offset else -1 :=
  C7_canonical_address cx3core cx3cat exDecode []
    (fun k e h => by simp [regFind] at h) "A" cx7e (by rfl)

/-- Claim C8: the first candidate offset at which the forward phase
completes wins the range scan (the scan of a range equals finalization at
the least matching candidate), a variant whose ranges report found ends
the variant list scan with that result (no later variant is attempted),
and processing other symbols never touches the registry entry of a symbol
not among them (a resolved entry is never overwritten later). -/
theorem C8_first_match_wins :
    (∀ (core : Int → Int → Int) (decode : Int → Bool → String × String × Bool)
       (symbol : String) (sp : SearchPattern) (bank s0 stop : Int)
       (i0 fuel k : Nat) (T0 : Int) (reg : Registry),
       seekRequired sp.pattern 0 = some i0 →
       forwardLoop core decode bank stop sp.pattern (sp.pattern.length + 1)
         (T0 + (k : Int)) (-1) i0 false "" "" = true →
       (∀ i : Nat, i < k → forwardLoop core decode bank stop sp.pattern
         (sp.pattern.length + 1) (T0 + (i : Int)) (-1) i0 false "" "" = false) →
       k < fuel →
       scanOffsets core decode symbol sp bank s0 stop fuel T0 reg
         = (finalize core decode symbol sp bank s0 (T0 + (k : Int)) reg, true, true))
  ∧ (∀ (core : Int → Int → Int) (decode : Int → Bool → String × String × Bool)
       (symbol : String) (sp : SearchPattern) (rest : List SearchPattern)
       (reg reg1 : Registry),
       processRanges core decode symbol sp sp.ranges reg = (reg1, true, true) →
       processVariants core decode symbol (sp :: rest) reg = (reg1, true, true))
  ∧ (∀ (core : Int → Int → Int) (decode : Int → Bool → String × String × Bool)
       (keys : List String) (cat : Catalog) (reg : Registry) (s : String),
       s ∉ keys →
       regFind (processSymbols core decode keys cat reg).1 s = regFind reg s) := by
  refine ⟨?_, ?_, ?_⟩
  · intro core decode symbol sp bank s0 stop i0 fuel k T0 reg hseek hT hmin hk
    exact scanOffsets_first_match core decode symbol sp bank s0 stop hseek
      fuel k T0 reg hT hmin hk
  · intro core decode symbol sp rest reg reg1 hr
    simp [processVariants, hr]
  · intro core decode keys cat reg s hs
    exact processSymbols_frame core decode keys cat reg hs

/-- Claim C8, witness: in fixture one the candidates 5 and 6 fail and 7
matches, so the range scan from 5 with three candidates of fuel equals
finalization at 5 + 2. -/
theorem C8_first_match_wins_witness :
    scanOffsets cx1core exDecode "S" cx1sp 0 5 8 3 5 [("S", nfEntry "S")]
      = (finalize cx1core exDecode "S" cx1sp 0 5 ((5 : Int) + ((2 : Nat) : Int))
          [("S", nfEntry "S")], true, true) :=
  C8_first_match_wins.1 cx1core exDecode "S" cx1sp 0 5 8 2 3 2 5 [("S", nfEntry "S")]
    (by rfl) (by decide) (by decide) (by decide)

/-- Claim C9: in the forward phase, an instruction incompatible with an
optional item advances only the pattern index, with the offset unchanged
and the same decoded instruction cached for re-testing against the next
item; an instruction incompatible with a required item makes the loop
report no match; and a candidate whose forward loop reports no match is
abandoned, the scan moving to the next candidate offset. -/
theorem C9_forward_step :
    (∀ (core : Int → Int → Int) (decode : Int → Bool → String × String × Bool)
       (bank stop : Int) (pattern : List PatternItem) (fuel : Nat)
       (offset lastOffset : Int) (iPat : Nat) (extended ext1 : Bool)
       (cOp cArg op arg : String),
       offset < stop → iPat < pattern.length →
       (if offset ≠ lastOffset then decode (core bank offset) extended
        else (cOp, cArg, extended)) = (op, arg, ext1) →
       ¬ (((pattern.getD iPat junkItem).opcodes = []
             ∨ op ∈ (pattern.getD iPat junkItem).opcodes)
          ∧ ((pattern.getD iPat junkItem).operands = []
             ∨ arg ∈ (pattern.getD iPat junkItem).operands)) →
       (pattern.getD iPat junkItem).required = false →
       forwardLoop core decode bank stop pattern (fuel + 1) offset lastOffset iPat
           extended cOp cArg
         = forwardLoop core decode bank stop pattern fuel offset offset (iPat + 1)
             ext1 op arg)
  ∧ (∀ (core : Int → Int → Int) (decode : Int → Bool → String × String × Bool)
       (bank stop : Int) (pattern : List PatternItem) (fuel : Nat)
       (offset lastOffset : Int) (iPat : Nat) (extended ext1 : Bool)
       (cOp cArg op arg : String),
       offset < stop → iPat < pattern.length →
       (if offset ≠ lastOffset then decode (core bank offset) extended
        else (cOp, cArg, extended)) = (op, arg, ext1) →
       ¬ (((pattern.getD iPat junkItem).opcodes = []
             ∨ op ∈ (pattern.getD iPat junkItem).opcodes)
          ∧ ((pattern.getD iPat junkItem).operands = []
             ∨ arg ∈ (pattern.getD iPat junkItem).operands)) →
       (pattern.getD iPat junkItem).required = true →
       forwardLoop core decode bank stop pattern (fuel + 1) offset lastOffset iPat
           extended cOp cArg = false)
  ∧ (∀ (core : Int → Int → Int) (decode : Int → Bool → String × String × Bool)
       (symbol : String) (sp : SearchPattern) (bank s0 stop : Int)
       (fuel : Nat) (T : Int) (reg : Registry) (i0 : Nat),
       seekRequired sp.pattern 0 = some i0 →
       forwardLoop core decode bank stop sp.pattern (sp.pattern.length + 1)
         T (-1) i0 false "" "" = false →
       scanOffsets core decode symbol sp bank s0 stop (fuel + 1) T reg
         = scanOffsets core decode symbol sp bank s0 stop fuel (T + 1) reg) := by
  refine ⟨?_, ?_, ?_⟩
  · intro core decode bank stop pattern fuel offset lastOffset iPat extended ext1
      cOp cArg op arg hlt hip hd hinc hreq
    simp only [forwardLoop]
    rw [if_pos (And.intro hlt hip), hd]
    rw [if_neg (by simpa using hinc)]
    have hcond : ¬ ((pattern.getD iPat junkItem).required = true) := by
      rw [hreq]; exact Bool.false_ne_true
    rw [if_neg hcond]
  · intro core decode bank stop pattern fuel offset lastOffset iPat extended ext1
      cOp cArg op arg hlt hip hd hinc hreq
    simp only [forwardLoop]
    rw [if_pos (And.intro hlt hip), hd]
    rw [if_neg (by simpa using hinc)]
    rw [if_pos hreq]
  · intro core decode symbol sp bank s0 stop fuel T reg i0 hseek hfwd
    simp only [scanOffsets, hseek]
    rw [if_neg (by simp [hfwd])]

/-- Claim C9, witness: in fixture one, the required item at index 2 is
incompatible with the instruction at offset 5, so the forward loop
reports no match there. -/
theorem C9_forward_step_witness :
    forwardLoop cx1core exDecode 0 8 cx1sp.pattern (3 + 1) 5 (-1) 2 false "" "" = false :=
  C9_forward_step.2.1 cx1core exDecode 0 8 cx1sp.pattern 3 5 (-1) 2 false false
    "" "" "W105" "X105" (by decide) (by decide) (by decide) (by decide) (by decide)

/-- Claim C10: the leading-optional seek stays within the item list
exactly when the pattern contains a required item, and a candidate offset
scanned with a pattern containing no required item makes the scan raise
(IndexError), aborting with the not-raised flag false. -/
theorem C10_all_optional_seek :
    (∀ (items : List PatternItem) (i : Nat),
       (seekRequired items i).isSome = true ↔ ∃ it ∈ items, it.required = true)
  ∧ (∀ (core : Int → Int → Int) (decode : Int → Bool → String × String × Bool)
       (symbol : String) (sp : SearchPattern) (bank s0 stop : Int)
       (fuel : Nat) (T : Int) (reg : Registry),
       seekRequired sp.pattern 0 = none →
       scanOffsets core decode symbol sp bank s0 stop (fuel + 1) T reg
         = (reg, false, false)) := by
  refine ⟨seekRequired_isSome_iff, ?_⟩
  intro core decode symbol sp bank s0 stop fuel T reg hseek
  simp [scanOffsets, hseek]

/-- Claim C10, witness: an all-optional variant makes the candidate loop
raise at its first candidate. -/
theorem C10_all_optional_seek_witness :
    scanOffsets cx1core exDecode "S" cw10sp 0 0 4 (3 + 1) 0 [] = ([], false, false) :=
  C10_all_optional_seek.2 cx1core exDecode "S" cw10sp 0 0 4 3 0 [] (by rfl)

end SearchAGC

